import Mathlib

/-!
Verification of the mistral-playground RAG backend

Shallow embedding, in Lean 4, of the parts of the `mistral-playground`
repository that the specification's claims are about:

* collection-name sanitization (`backend/app/api/endpoints/rag.py`,
  `upload_document`),
* the paragraph chunker (`backend/app/services/rag_service.py`, `_split_text`),
* FAISS-backend and simple-backend document ingestion and retrieval
  (`_process_document_faiss`, `_process_document_simple`, `_query_rag_faiss`,
  `_query_rag_simple`),
* the RAG generation/response stage of `query_rag` and the `/rag/query`
  endpoint handler,
* collection deletion (`delete_collection`, `_delete_collection_faiss`),
* the model download service (`download_service.py`), and
* model comparison (`model_service.py`, `compare_models`,
  `generate_response`, `_determine_provider`).

Python strings are modelled as `List Char` where character-level behaviour
matters and as `String` otherwise; Python list indexing (including negative
indices) is modelled by `pyGet`; code that can raise is modelled in
`Except String`.
-/

namespace MistralPlayground

instance {ε α : Type} [DecidableEq ε] [DecidableEq α] : DecidableEq (Except ε α) := fun x y =>
  match x, y with
  | .error a, .error b =>
    if h : a = b then isTrue (by rw [h]) else isFalse (fun hh => h (by cases hh; rfl))
  | .ok a, .ok b =>
    if h : a = b then isTrue (by rw [h]) else isFalse (fun hh => h (by cases hh; rfl))
  | .error _, .ok _ => isFalse (fun hh => Except.noConfusion hh)
  | .ok _, .error _ => isFalse (fun hh => Except.noConfusion hh)

/-! ## Python string and list primitives -/

/-- ASCII alphanumeric test, matching the Python regex class `[a-zA-Z0-9]`. -/
def isAlnumAscii (c : Char) : Bool := c.isAlpha || c.isDigit

/-- Python list indexing `l[i]`: negative indices count from the end;
out-of-range access raises `IndexError`. -/
def pyGet (l : List α) (i : Int) : Except String α :=
  let j : Int := if i < 0 then (l.length : Int) + i else i
  if h : 0 ≤ j ∧ j.toNat < l.length then .ok (l.get ⟨j.toNat, h.2⟩)
  else .error "IndexError: list index out of range"

/-- Python `str.strip()`: remove leading and trailing whitespace. -/
def pyStrip (l : List Char) : List Char :=
  ((l.dropWhile Char.isWhitespace).reverse.dropWhile Char.isWhitespace).reverse

/-- Python `str.lower()` (ASCII case folding suffices for the modelled inputs). -/
def pyLower (l : List Char) : List Char := l.map Char.toLower

/-- Auxiliary accumulator loop for `pySplitWs`. -/
def pySplitWsAux : List Char → List Char → List (List Char)
  | [], acc => if acc.isEmpty then [] else [acc.reverse]
  | c :: cs, acc =>
    if c.isWhitespace then
      if acc.isEmpty then pySplitWsAux cs [] else acc.reverse :: pySplitWsAux cs []
    else pySplitWsAux cs (c :: acc)

/-- Python `str.split()` with no argument: split on whitespace runs and drop
empty pieces. -/
def pySplitWs (l : List Char) : List (List Char) := pySplitWsAux l []

/-! ## Collection-name sanitization

From `backend/app/api/endpoints/rag.py`, `upload_document` (lines 37-48):

    sanitized = re.sub(r'[^a-zA-Z0-9_-]', '_', collection_name)
    sanitized = re.sub(r'^[^a-zA-Z0-9]+', '', sanitized)
    sanitized = re.sub(r'[^a-zA-Z0-9]+$', '', sanitized)
    if len(sanitized) < 3:  sanitized = f"col_{sanitized}"
    if len(sanitized) > 63: sanitized = sanitized[:63]
-/

/-- A character the first substitution keeps unchanged: `[a-zA-Z0-9_-]`. -/
def isValidCollChar (c : Char) : Bool := isAlnumAscii c || c = '_' || c = '-'

/-- Drop the trailing run of characters satisfying `p` (the effect of
`re.sub(r'...+$', '', s)` for a character-class pattern). -/
def dropTrailing (p : Char → Bool) (l : List Char) : List Char :=
  (l.reverse.dropWhile p).reverse

/-- The three regex substitutions of the sanitizer. -/
def sanitizeCore (name : List Char) : List Char :=
  let s1 := name.map (fun c => if isValidCollChar c then c else '_')
  let s2 := s1.dropWhile (fun c => !isAlnumAscii c)
  dropTrailing (fun c => !isAlnumAscii c) s2

/-- The server-side collection-name sanitization of `upload_document`. -/
def sanitizeCollectionName (name : List Char) : List Char :=
  let s := sanitizeCore name
  let s := if s.length < 3 then "col_".data ++ s else s
  if s.length > 63 then s.take 63 else s

/-- True iff the list is nonempty and its last element satisfies `p`. -/
def lastSatisfies (p : Char → Bool) (l : List Char) : Bool :=
  match l.getLast? with
  | some c => p c
  | none => false

/-! ## Chunker

From `backend/app/services/rag_service.py`, `_split_text` (lines 268-289).
The function first splits the text into paragraphs with
`re.split(r'\n\s*\n', text)`; the accumulation loop below consumes that
paragraph list.  The claims about the chunker concern the loop, so the loop is
modelled over an arbitrary paragraph list. -/

/-- The `"\n\n"` separator inserted between accumulated paragraphs. -/
def chunkSep : List Char := ['\n', '\n']

/-- The accumulation loop of `_split_text`: greedy accumulation with sealing
and overlap seeding.  `cur` is `current_chunk`.  `cur.drop (cur.length -
chunkOverlap)` is `current_chunk[max(0, len(current_chunk) - chunk_overlap):]`. -/
def chunkLoop (chunkSize chunkOverlap : Nat) : List (List Char) → List Char → List (List Char)
  | [], cur => if (pyStrip cur).isEmpty then [] else [pyStrip cur]
  | p :: ps, cur =>
    if cur.length + p.length > chunkSize ∧ cur ≠ [] then
      pyStrip cur ::
        chunkLoop chunkSize chunkOverlap ps (cur.drop (cur.length - chunkOverlap) ++ chunkSep ++ p)
    else
      chunkLoop chunkSize chunkOverlap ps (if cur ≠ [] then cur ++ chunkSep ++ p else p)

/-- The chunker `_split_text` applied to an already-computed paragraph list. -/
def splitTextChunks (paragraphs : List (List Char)) (chunkSize chunkOverlap : Nat) :
    List (List Char) :=
  chunkLoop chunkSize chunkOverlap paragraphs []

/-- Modelled from the claim wording, for comparison with `chunkLoop`: on
sealing, the next buffer is seeded with exactly the last `chunkOverlap`
characters of the *sealed* (stripped) chunk concatenated directly with the new
paragraph. -/
def chunkLoopClaimed (chunkSize chunkOverlap : Nat) : List (List Char) → List Char → List (List Char)
  | [], cur => if (pyStrip cur).isEmpty then [] else [pyStrip cur]
  | p :: ps, cur =>
    if cur.length + p.length > chunkSize ∧ cur ≠ [] then
      pyStrip cur ::
        chunkLoopClaimed chunkSize chunkOverlap ps
          ((pyStrip cur).drop ((pyStrip cur).length - chunkOverlap) ++ p)
    else
      chunkLoopClaimed chunkSize chunkOverlap ps (if cur ≠ [] then cur ++ chunkSep ++ p else p)

/-- The claimed chunker on a paragraph list. -/
def splitTextChunksClaimed (paragraphs : List (List Char)) (chunkSize chunkOverlap : Nat) :
    List (List Char) :=
  chunkLoopClaimed chunkSize chunkOverlap paragraphs []

/-- The last `k` characters of `l` (all of `l` when `l` is shorter). -/
def takeLast (k : Nat) (l : List Char) : List Char := (l.reverse.take k).reverse

/-- The amended seeding rule, stated the way the corrected claim reads: the
next buffer is the last `min(chunkOverlap, length)` characters of the
*pre-strip* buffer, then a blank-line separator, then the new paragraph. -/
def chunkLoopAmended (chunkSize chunkOverlap : Nat) : List (List Char) → List Char → List (List Char)
  | [], cur => if (pyStrip cur).isEmpty then [] else [pyStrip cur]
  | p :: ps, cur =>
    if cur.length + p.length > chunkSize ∧ cur ≠ [] then
      pyStrip cur ::
        chunkLoopAmended chunkSize chunkOverlap ps (takeLast chunkOverlap cur ++ chunkSep ++ p)
    else
      chunkLoopAmended chunkSize chunkOverlap ps (if cur ≠ [] then cur ++ chunkSep ++ p else p)

/-- The amended chunker on a paragraph list. -/
def splitTextChunksAmended (paragraphs : List (List Char)) (chunkSize chunkOverlap : Nat) :
    List (List Char) :=
  chunkLoopAmended chunkSize chunkOverlap paragraphs []

/-! ## Collections and document ingestion

From `_process_document_faiss` (lines 388-474) and `_process_document_simple`
(lines 476-542) of `rag_service.py`.  Text extraction and chunking happen
before the collection mutation; the ingestion model takes the chunk list as
input.  Embeddings are produced by the external sentence-transformers model,
one vector per chunk (`embeddings = self.embedding_model.encode(chunks)`),
modelled by an arbitrary function `embed`.  `str(uuid.uuid4())` is an opaque
fresh identifier whose value is irrelevant to the claims, modelled by a
constant.  Collection stores are Python dicts, modelled as functions. -/

/-- Per-chunk metadata dict `{"source": ..., "chunk_index": i, "chunk_size": len(chunk)}`. -/
structure ChunkMeta where
  source : String
  chunkIndex : Nat
  chunkSize : Nat
deriving DecidableEq

/-- A FAISS-backend collection: the flat index (vectors) plus the three
parallel lists. -/
structure FaissCollection where
  index : List (List Rat)
  documents : List (List Char)
  metadatas : List ChunkMeta
  ids : List String
deriving DecidableEq

/-- A simple-fallback collection: three parallel lists, no index. -/
structure SimpleCollection where
  documents : List (List Char)
  metadatas : List ChunkMeta
  ids : List String
deriving DecidableEq

abbrev FaissStore := String → Option FaissCollection

abbrev SimpleStore := String → Option SimpleCollection

def emptyFaissStore : FaissStore := fun _ => none

def emptySimpleStore : SimpleStore := fun _ => none

def emptyFaissCollection : FaissCollection := ⟨[], [], [], []⟩

def emptySimpleCollection : SimpleCollection := ⟨[], [], []⟩

/-- One iteration of the append loop of `_process_document_faiss`
(`for i, (chunk, embedding) in enumerate(zip(chunks, embeddings))`). -/
def addChunkFaiss (src : String) (c : FaissCollection) (ich : Nat × List Char) : FaissCollection :=
  { c with
    documents := c.documents ++ [ich.2]
    metadatas := c.metadatas ++ [⟨src, ich.1, ich.2.length⟩]
    ids := c.ids ++ ["uuid"] }

/-- One iteration of the append loop of `_process_document_simple`. -/
def addChunkSimple (src : String) (c : SimpleCollection) (ich : Nat × List Char) : SimpleCollection :=
  { c with
    documents := c.documents ++ [ich.2]
    metadatas := c.metadatas ++ [⟨src, ich.1, ich.2.length⟩]
    ids := c.ids ++ ["uuid"] }

/-- Model of `_process_document_faiss`: create the collection (empty) if absent, append
one document/metadata/id per chunk to it, then add the embeddings to its FAISS
index. -/
def processDocumentFaiss (embed : List Char → List Rat) (src name : String)
    (chunks : List (List Char)) (store : FaissStore) : FaissStore :=
  let base := match store name with
    | some c => c
    | none => emptyFaissCollection
  let c1 := chunks.enum.foldl (addChunkFaiss src) base
  let c2 := { c1 with index := c1.index ++ chunks.map embed }
  fun n => if n = name then some c2 else store n

/-- Model of `_process_document_simple`: create the collection (empty) if absent and
append one document/metadata/id per chunk to it. -/
def processDocumentSimple (src name : String) (chunks : List (List Char))
    (store : SimpleStore) : SimpleStore :=
  let base := match store name with
    | some c => c
    | none => emptySimpleCollection
  let c1 := chunks.enum.foldl (addChunkSimple src) base
  fun n => if n = name then some c1 else store n

/-- One document ingestion: source file name, target collection, chunk list. -/
structure IngestOp where
  src : String
  collection : String
  chunks : List (List Char)

/-- A sequence of successful FAISS-backend ingestions. -/
def ingestAllFaiss (embed : List Char → List Rat) (ops : List IngestOp)
    (store : FaissStore) : FaissStore :=
  ops.foldl (fun st op => processDocumentFaiss embed op.src op.collection op.chunks st) store

/-- A sequence of successful simple-backend ingestions. -/
def ingestAllSimple (ops : List IngestOp) (store : SimpleStore) : SimpleStore :=
  ops.foldl (fun st op => processDocumentSimple op.src op.collection op.chunks st) store

/-- The parallel-array alignment invariant for a FAISS collection:
`len(documents) == len(metadatas) == len(ids) ==` number of indexed vectors. -/
def FaissCollection.aligned (c : FaissCollection) : Prop :=
  c.documents.length = c.metadatas.length ∧ c.metadatas.length = c.ids.length ∧
    c.ids.length = c.index.length

/-- The alignment invariant for a simple collection. -/
def SimpleCollection.aligned (c : SimpleCollection) : Prop :=
  c.documents.length = c.metadatas.length ∧ c.metadatas.length = c.ids.length

/-- Alignment of the collection stored under `name`, trivially true when the
name is absent. -/
def faissAlignedAt (store : FaissStore) (name : String) : Prop :=
  ∀ c, store name = some c → c.aligned

/-- Alignment of the simple collection stored under `name`. -/
def simpleAlignedAt (store : SimpleStore) (name : String) : Prop :=
  ∀ c, store name = some c → c.aligned

/-! ## FAISS-backend retrieval

From `_query_rag_faiss` (lines 693-733 of `rag_service.py`).  The FAISS
`index.search(query, k)` call is external: per the FAISS documentation a flat
index returns exactly `k` (label, distance) pairs, the first `min k ntotal`
being valid vector indices and the remainder being `-1` padding.  The model
takes the search result as input and `faissSearchLabels` builds the documented
label shape. -/

/-- A retrieved document as built by the query functions
(`{"text": ..., "metadata": ..., "similarity_score": ..., "rank": ...}`);
`metadata = none` models the `{}` fallback. -/
structure RetrievedDoc where
  text : List Char
  metadata : Option ChunkMeta
  similarityScore : Rat
  rank : Nat
deriving DecidableEq

/-- Labels returned by a FAISS flat-index search over `n` vectors with `k`
requested results: the valid indices (in backend-determined similarity order
`order`) followed by `-1` padding up to length `k`. -/
def faissSearchLabels (n k : Nat) (order : List Nat) : List Int :=
  (order.take (min k n)).map Int.ofNat ++ List.replicate (k - min k n) (-1)

/-- One iteration of the result loop of `_query_rag_faiss`
(`for i, (idx, distance) in enumerate(zip(indices[0], distances[0]))`):
append the document when `idx < len(collection['documents'])`, reading
`documents[idx]` and `metadatas[idx]` with Python indexing. -/
def faissRetrieveStep (documents : List (List Char)) (metadatas : List ChunkMeta)
    (acc : List RetrievedDoc) (entry : Nat × Int × Rat) : Except String (List RetrievedDoc) :=
  let i := entry.1
  let idx := entry.2.1
  let dist := entry.2.2
  if idx < (documents.length : Int) then do
    let t ← pyGet documents idx
    let m ← if idx < (metadatas.length : Int) then (pyGet metadatas idx).map some
            else pure (none : Option ChunkMeta)
    pure (acc ++ [⟨t, m, 1 - dist, i + 1⟩])
  else pure acc

/-- The retrieved-documents construction of `_query_rag_faiss`. -/
def faissRetrieveLoop (documents : List (List Char)) (metadatas : List ChunkMeta)
    (results : List (Int × Rat)) : Except String (List RetrievedDoc) :=
  results.enum.foldlM (faissRetrieveStep documents metadatas) []

/-! ## Simple-backend (keyword) retrieval

From `_query_rag_simple` (lines 813-865 of `rag_service.py`). -/

/-- Python substring containment `needle in hay`. -/
def pyIn (needle hay : List Char) : Bool :=
  match hay with
  | [] => needle.isEmpty
  | c :: t => needle.isPrefixOf (c :: t) || pyIn needle t

/-- Python loop `score = 0; for term in query_terms: if term in doc_lower: score += 1`. -/
def countTermMatches (queryTerms : List (List Char)) (docLower : List Char) : Nat :=
  queryTerms.foldl (fun score t => if pyIn t docLower then score + 1 else score) 0

/-- Build `scored_docs`: `(i, score, doc)` for each document whose score is
positive. -/
def simpleScoreDocs (queryTerms : List (List Char)) (documents : List (List Char)) :
    List (Nat × Nat × List Char) :=
  (documents.enum.map (fun id0 => (id0.1, countTermMatches queryTerms (pyLower id0.2), id0.2))).filter
    (fun x => 0 < x.2.1)

/-- Build the retrieved documents from `top_docs`, normalizing each score by
`len(query_terms)`; in Python a zero denominator raises `ZeroDivisionError`. -/
def simpleRetrieveScored (queryTerms : List (List Char)) (metadatas : List ChunkMeta)
    (top : List (Nat × Nat × List Char)) : Except String (List RetrievedDoc) :=
  top.enum.mapM (fun rx => do
    let rank := rx.1
    let docIdx := rx.2.1
    let score := rx.2.2.1
    let doc := rx.2.2.2
    let sim ← if queryTerms.length = 0 then
                Except.error "ZeroDivisionError: division by zero"
              else Except.ok ((score : Rat) / (queryTerms.length : Rat))
    pure (⟨doc, metadatas.get? docIdx, sim, rank + 1⟩ : RetrievedDoc))

/-- The retrieval stage of `_query_rag_simple`: keyword scoring, stable sort by
descending score, `top_k` cut, score normalization, and the first-documents
fallback with sentinel score `0.1` when nothing matched. -/
def simpleRetrieve (query : List Char) (documents : List (List Char))
    (metadatas : List ChunkMeta) (topK : Nat) : Except String (List RetrievedDoc) :=
  let queryTerms := pySplitWs (pyLower query)
  let scored := simpleScoreDocs queryTerms documents
  let sorted := scored.mergeSort (fun a b => decide (b.2.1 ≤ a.2.1))
  let top := sorted.take topK
  match simpleRetrieveScored queryTerms metadatas top with
  | .error e => .error e
  | .ok retrieved =>
    if retrieved.isEmpty then
      .ok ((documents.take topK).enum.map (fun id0 =>
        (⟨id0.2, metadatas.get? id0.1, (1 : Rat) / 10, id0.1 + 1⟩ : RetrievedDoc)))
    else
      .ok retrieved

/-! ## Model generation and the RAG respond stage

From `model_service.py`, `generate_response` (lines 41-97), and
`rag_service.py`, `query_rag` (lines 639-691).  The provider SDK call is
external; its outcome (a response, or a raised exception) is a parameter. -/

/-- Structure `ModelResponse` (`backend/app/models/responses.py`). -/
structure ModelResponse where
  text : String
  modelName : String
  provider : String
  tokensUsed : Nat
  inputTokens : Nat
  outputTokens : Nat
  latencyMs : Rat
  finishReason : String
deriving DecidableEq

/-- The provider identifiers `generate_response` dispatches on
(`ModelProvider` enum values). -/
def validProviders : List String :=
  ["openai", "anthropic", "google", "vllm", "huggingface", "ollama"]

/-- The error text built by the `except` handler of `generate_response`. -/
def errorApologyText (e : String) : String :=
  "Sorry, I encountered an error while generating a response: " ++ e ++
    ". Please try a different model or check your configuration."

/-- The error `ModelResponse` built by the `except` handler of
`generate_response` (latency is wall-clock, irrelevant here, taken as 0). -/
def errorModelResponse (modelName : Option String) (provider e : String) : ModelResponse :=
  { text := errorApologyText e
    modelName := modelName.getD "error"
    provider := provider
    tokensUsed := 0
    inputTokens := 0
    outputTokens := 0
    latencyMs := 0
    finishReason := "error" }

/-- Model of `ModelService.generate_response`: dispatch on the provider, absorb any
provider exception into an error `ModelResponse`.  An unknown provider string
raises `ValueError`, which the handler also absorbs; but when the request
provider is `None` the handler itself fails, because
`ModelResponse(provider=None)` does not validate (`provider: str`), and that
validation error propagates out of `generate_response`. -/
def modelServiceGenerate (modelName provider : Option String)
    (providerResult : Except String ModelResponse) : Except String ModelResponse :=
  match provider with
  | some p =>
    if p ∈ validProviders then
      match providerResult with
      | .ok r => .ok r
      | .error e => .ok (errorModelResponse modelName p e)
    else
      .ok (errorModelResponse modelName p ("Unsupported provider: " ++ p))
  | none =>
    .error "ValidationError: provider must be a string"

/-- The fallback answer of `query_rag` for a blank generation. -/
def ragFallbackAnswer : String :=
  "I found relevant information in the document, but I\x27m having trouble generating a detailed response. Please try rephrasing your question."

/-- The apology `query_rag` assigns to `answer` when the generation call
raises. -/
def ragErrorAnswer : String :=
  "I found relevant information in the document, but encountered an error while generating the response. Please try again."

/-- Structure `RAGResponse` as constructed by `query_rag`. -/
structure RAGResponseView where
  query : String
  answer : String
  retrievedDocuments : List RetrievedDoc
  modelResponse : ModelResponse
deriving DecidableEq

/-- The generation + respond stage of `query_rag` (lines 639-691): on a
successful generation call, build the `RAGResponse`; on a raised generation
call, assign the apology to `answer` — but the subsequent `RAGResponse`
construction reads the local `model_response`, which was never assigned on
this path, so the stage raises instead of returning. -/
def queryRagRespond (query : String) (reqModelName reqProvider : Option String)
    (docs : List RetrievedDoc) (genResult : Except String ModelResponse) :
    Except String RAGResponseView :=
  match genResult with
  | .ok mr =>
    let answer := if (pyStrip mr.text.data).isEmpty then ragFallbackAnswer else mr.text
    .ok { query := query
          answer := answer
          retrievedDocuments := docs
          modelResponse :=
            { text := answer
              modelName := reqModelName.getD "unknown"
              provider := reqProvider.getD "huggingface"
              tokensUsed := mr.tokensUsed
              inputTokens := mr.inputTokens
              outputTokens := mr.outputTokens
              latencyMs := mr.latencyMs
              finishReason := mr.finishReason } }
  | .error _ =>
    .error "UnboundLocalError: local variable \x27model_response\x27 referenced before assignment"

/-- The `POST /rag/query` handler (`rag.py` lines 13-20): a raised service
call becomes `HTTPException(status_code=500)`. -/
def ragQueryEndpointStatus (serviceResult : Except String RAGResponseView) : Nat :=
  match serviceResult with
  | .ok _ => 200
  | .error _ => 500

/-! ## Model comparison

From `model_service.py`, `compare_models` (lines 719-770) and
`_determine_provider` (lines 812-823). -/

/-- Model of `_determine_provider`. -/
def determineProvider (m : String) : String :=
  if "gpt-".isPrefixOf m then "openai"
  else if "claude-".isPrefixOf m then "anthropic"
  else if "gemini-".isPrefixOf m then "google"
  else "vllm"

/-- The pass-through generation-parameters dict. -/
abbrev Params := List (String × String)

/-- Structure `ModelComparison` (`backend/app/models/responses.py`, lines 108-117): note
the declared fields — there is no `finish_reason` field. -/
structure ModelComparison where
  modelName : String
  provider : String
  text : String
  parameters : Params
  usage : Nat × Nat × Nat
  latency : Rat
deriving DecidableEq

/-- The per-item conversion loop body of `compare_models`: an exception
captured by `asyncio.gather` becomes an error entry; a `ModelResponse` is
converted field by field (dropping `finish_reason`). -/
def toComparison (parameters : Params) (requestedModel : String)
    (resp : Except String ModelResponse) : ModelComparison :=
  match resp with
  | .error e =>
    { modelName := requestedModel
      provider := "vllm"
      text := "Error: " ++ e
      parameters := parameters
      usage := (0, 0, 0)
      latency := 0 }
  | .ok r =>
    { modelName := r.modelName
      provider := r.provider
      text := r.text
      parameters := parameters
      usage := (r.tokensUsed, r.inputTokens, r.outputTokens)
      latency := r.latencyMs / 1000 }

/-- The `asyncio.gather` stage of `compare_models`: one `generate_response`
call per requested model (each model name paired with its provider call
outcome). -/
def gatherResponses (models : List (String × Except String ModelResponse)) :
    List (Except String ModelResponse) :=
  models.map (fun mp => modelServiceGenerate (some mp.1) (some (determineProvider mp.1)) mp.2)

/-- Model of `compare_models`: gather, then convert each response to a
`ModelComparison`. -/
def compareModels (parameters : Params)
    (models : List (String × Except String ModelResponse)) : List ModelComparison :=
  (models.zip (gatherResponses models)).map (fun x => toComparison parameters x.1.1 x.2)

/-- The key/value pairs a `ModelComparison` serializes to: pydantic emits
exactly the declared fields of the class (numeric values rendered with
`toString`). -/
def modelComparisonPairs (c : ModelComparison) : List (String × String) :=
  [("model_name", c.modelName), ("provider", c.provider), ("text", c.text),
   ("parameters", String.intercalate "," (c.parameters.map (fun kv => kv.1 ++ "=" ++ kv.2))),
   ("usage", toString c.usage.1 ++ "," ++ toString c.usage.2.1 ++ "," ++ toString c.usage.2.2),
   ("latency", toString c.latency)]

/-- A gathered per-model generation outcome that reports an error: a
`ModelResponse` with `finish_reason = "error"` (how `generate_response`
absorbs provider exceptions), or a raised call captured by `asyncio.gather`. -/
def isErrorResponse (r : Except String ModelResponse) : Bool :=
  match r with
  | .ok v => v.finishReason == "error"
  | .error _ => true

/-- A compare request in which exactly one provider call (for model `mf`)
raises exception `e` and the others return their responses. -/
def compareInputs (pre : List (String × ModelResponse)) (mf e : String)
    (post : List (String × ModelResponse)) : List (String × Except String ModelResponse) :=
  pre.map (fun x => (x.1, Except.ok x.2)) ++
    (mf, Except.error e) :: post.map (fun x => (x.1, Except.ok x.2))

/-- A sample successful generation (used in concrete instantiations). -/
def sampleStopResponse (m : String) : ModelResponse :=
  ⟨"sample output", m, "vllm", 5, 2, 3, 100, "stop"⟩

/-! ## Download service

From `download_service.py`: `download_model` (lines 23-79),
`_download_model_files` (lines 163-344), `is_model_downloaded` (lines
346-353).  The on-disk completion marker is modelled by `completedOnDisk`;
the in-memory task map by `activeDownloads`. -/

/-- A `download_status` record (the fields the claims are about). -/
structure DownloadRecord where
  status : String
  progress : Nat
  message : String
  bytesDownloaded : Nat
  totalBytes : Nat
deriving DecidableEq

/-- The download-service state. -/
structure DownloadState where
  downloadStatus : String → Option DownloadRecord
  activeDownloads : List String
  completedOnDisk : List String

/-- The `gated_models` list of `_download_model_files`. -/
def gatedModels : List String :=
  ["meta-llama/Meta-Llama-3-8B-Instruct",
   "meta-llama/Llama-3.1-8B-Instruct",
   "meta-llama/Meta-Llama-3-14B-Instruct",
   "meta-llama/Llama-3.2-3B-Instruct",
   "meta-llama/Llama-3.2-1B",
   "meta-llama/Llama-3.3-70B-Instruct",
   "google/gemma-2b-it",
   "google/gemma-7b-it",
   "google/gemma-3n-E2B-it",
   "google/gemma-3n-E4B-it",
   "google/gemma-3-4b-it",
   "google/gemma-3-27b-it"]

/-- The placeholder key `_download_model_files` ignores. -/
def placeholderApiKey : String := "your-huggingface-api-key-here"

/-- Credential resolution: the key from settings / environment / `.env`,
with the placeholder value treated as absent. -/
def resolveApiKey (rawKey : Option String) : Option String :=
  if rawKey = some placeholderApiKey then none else rawKey

/-- Python guard `if model_name in self.download_status: ... .update(...)`. -/
def setStatus (s : DownloadState) (m : String) (f : DownloadRecord → DownloadRecord) :
    DownloadState :=
  { s with downloadStatus := fun n =>
      if n = m then (s.downloadStatus m).map f else s.downloadStatus n }

/-- The record `download_model` installs before scheduling the task. -/
def startingRecord (m : String) : DownloadRecord :=
  { status := "downloading"
    progress := 0
    message := "Starting download of " ++ m
    bytesDownloaded := 0
    totalBytes := 0 }

/-- Model of `download_model`: returns the response status string, the new state, and
whether a background `_download_model_files` task was scheduled. -/
def downloadModel (s : DownloadState) (m : String) : String × DownloadState × Bool :=
  if m ∈ s.completedOnDisk then ("completed", s, false)
  else if m ∈ s.activeDownloads then ("downloading", s, false)
  else
    ("downloading",
     { s with
       downloadStatus := fun n => if n = m then some (startingRecord m) else s.downloadStatus n
       activeDownloads := s.activeDownloads ++ [m] },
     true)

/-- The failure message for a gated model without credentials, as written into
the download record. -/
def gatedMessage (m : String) : String :=
  "Gated model access required. Visit https://huggingface.co/" ++ m ++ " to request access."

/-- A fresh download-service state: nothing tracked, nothing active, nothing
on disk. -/
def freshDownloadState : DownloadState :=
  { downloadStatus := fun _ => none, activeDownloads := [], completedOnDisk := [] }

/-- One iteration of the simulated-progress loop. -/
def simulateProgressStep (m : String) (s : DownloadState) (progress : Nat) : DownloadState :=
  setStatus s m (fun r =>
    { r with progress := progress
             message := "Downloading " ++ m ++ "... " ++ toString progress ++ "%"
             bytesDownloaded := progress * 25000000
             totalBytes := 25000000 })

/-- The `finally` block: drop the task handle. -/
def finalizeTask (s : DownloadState) (m : String) : DownloadState :=
  { s with activeDownloads := s.activeDownloads.erase m }

/-- Model of `_download_model_files`: refuse a gated model without credentials
(record set to failed with the access URL); otherwise run the simulated
download and write the completion marker. -/
def downloadModelFilesTask (rawKey : Option String) (s : DownloadState) (m : String) :
    DownloadState :=
  if m ∈ gatedModels ∧ resolveApiKey rawKey = none then
    finalizeTask
      (setStatus s m (fun r => { r with status := "failed", message := gatedMessage m, progress := 0 }))
      m
  else
    let s1 := ((List.range 11).map (· * 10)).foldl (simulateProgressStep m) s
    let s2 := setStatus s1 m (fun r =>
      { r with status := "completed", progress := 100
               message := "Model " ++ m ++ " downloaded successfully" })
    finalizeTask { s2 with completedOnDisk := s2.completedOnDisk ++ [m] } m

/-! ## Collection deletion

From `delete_collection` (lines 1099-1113) and `_delete_collection_faiss`
(lines 1115-1126) of `rag_service.py`. -/

/-- A collection-metadata record (`faiss_collection_metadata` values). -/
structure CollectionMeta where
  description : String
  tags : List String
  isPublic : Bool
deriving DecidableEq

abbrev FaissMetaStore := String → Option CollectionMeta

/-- Model of `_delete_collection_faiss`: delete the entries if present, save, and
return `True` — unconditionally. -/
def deleteCollectionFaissImpl (store : FaissStore) (metaStore : FaissMetaStore)
    (name : String) : Bool × FaissStore × FaissMetaStore :=
  (true,
   fun n => if n = name then none else store n,
   fun n => if n = name then none else metaStore n)

/-- Model of `delete_collection` when `chroma_client is None` (the FAISS / simple
deployments): raise `RuntimeError` when FAISS is unavailable, otherwise
delegate to the FAISS implementation. -/
def deleteCollection (faissAvailable : Bool) (store : FaissStore) (metaStore : FaissMetaStore)
    (name : String) : Except String (Bool × FaissStore × FaissMetaStore) :=
  if !faissAvailable then
    .error "RuntimeError: Neither ChromaDB nor FAISS is available. RAG functionality is disabled."
  else
    .ok (deleteCollectionFaissImpl store metaStore name)

/-! # Theorems -/

/-! ## Sanitizer lemmas (C5) -/

theorem dropTrailing_eq_rdropWhile (p : Char → Bool) (l : List Char) :
    dropTrailing p l = l.rdropWhile p := rfl

theorem map_keep_of_all {p : Char → Bool} {d : Char} :
    ∀ {l : List Char}, (∀ c ∈ l, p c = true) → l.map (fun c => if p c then c else d) = l
  | [], _ => rfl
  | a :: t, h => by
    have ha := h a (List.mem_cons_self a t)
    simp only [List.map_cons, ha, if_true]
    rw [map_keep_of_all (fun c hc => h c (List.mem_cons_of_mem a hc))]

theorem validChar_of_map (a : Char) :
    isValidCollChar (if isValidCollChar a then a else '_') = true := by
  by_cases hv : isValidCollChar a = true
  · rw [if_pos hv]; exact hv
  · rw [if_neg hv]; decide

theorem sanitizeCore_all_valid (x : List Char) :
    ∀ c ∈ sanitizeCore x, isValidCollChar c = true := by
  intro c hc
  unfold sanitizeCore at hc
  rw [dropTrailing_eq_rdropWhile] at hc
  have h2 := (List.rdropWhile_prefix (fun c => !isAlnumAscii c) _).subset hc
  have h1 := (List.dropWhile_suffix (fun c => !isAlnumAscii c)).subset h2
  obtain ⟨a, _, rfl⟩ := List.mem_map.mp h1
  exact validChar_of_map a

theorem headAlnum_of_dropWhile : ∀ {l : List Char} {c : Char} {cs : List Char},
    l.dropWhile (fun c => !isAlnumAscii c) = c :: cs → isAlnumAscii c = true := by
  intro l
  induction l with
  | nil => intro c cs h; simp at h
  | cons a t ih =>
    intro c cs h
    rw [List.dropWhile_cons] at h
    split at h
    · exact ih h
    · rename_i hcond
      injection h with h1 _
      rw [← h1]
      simpa using hcond

theorem sanitizeCore_head (x : List Char) :
    ∀ c cs, sanitizeCore x = c :: cs → isAlnumAscii c = true := by
  intro c cs h
  unfold sanitizeCore at h
  rw [dropTrailing_eq_rdropWhile] at h
  obtain ⟨t, ht⟩ := List.rdropWhile_prefix (fun c => !isAlnumAscii c)
    ((x.map (fun c => if isValidCollChar c then c else '_')).dropWhile (fun c => !isAlnumAscii c))
  rw [h] at ht
  exact headAlnum_of_dropWhile ht.symm

theorem colPrefix_length : ("col_".data : List Char).length = 4 := rfl

theorem length_colPrefix_append (l : List Char) :
    ("col_".data ++ l).length = 4 + l.length := by
  rw [List.length_append, colPrefix_length]

theorem sanitize_eq_cases (x : List Char) :
    ((sanitizeCore x).length < 3 ∧
      sanitizeCollectionName x = "col_".data ++ sanitizeCore x) ∨
    (3 ≤ (sanitizeCore x).length ∧ (sanitizeCore x).length ≤ 63 ∧
      sanitizeCollectionName x = sanitizeCore x) ∨
    (63 < (sanitizeCore x).length ∧ sanitizeCollectionName x = (sanitizeCore x).take 63) := by
  by_cases h3 : (sanitizeCore x).length < 3
  · left
    refine ⟨h3, ?_⟩
    simp only [sanitizeCollectionName]
    rw [if_pos h3]
    have hno : ¬ (("col_".data ++ sanitizeCore x).length > 63) := by
      rw [length_colPrefix_append]; omega
    rw [if_neg hno]
  · by_cases h63 : (sanitizeCore x).length > 63
    · right; right
      refine ⟨h63, ?_⟩
      simp only [sanitizeCollectionName]
      rw [if_neg h3, if_pos h63]
    · right; left
      refine ⟨by omega, by omega, ?_⟩
      simp only [sanitizeCollectionName]
      rw [if_neg h3, if_neg h63]

theorem sanitize_length (x : List Char) :
    3 ≤ (sanitizeCollectionName x).length ∧ (sanitizeCollectionName x).length ≤ 63 := by
  rcases sanitize_eq_cases x with ⟨h3, he⟩ | ⟨h3, h63, he⟩ | ⟨h63, he⟩ <;> rw [he]
  · rw [length_colPrefix_append]; omega
  · omega
  · rw [List.length_take]; omega

theorem sanitize_all_valid (x : List Char) :
    ∀ c ∈ sanitizeCollectionName x, isValidCollChar c = true := by
  have hcol : ∀ c ∈ ("col_".data : List Char), isValidCollChar c = true := by decide
  rcases sanitize_eq_cases x with ⟨h3, he⟩ | ⟨h3, h63, he⟩ | ⟨h63, he⟩ <;> rw [he] <;> intro c hc
  · rcases List.mem_append.mp hc with h | h
    · exact hcol c h
    · exact sanitizeCore_all_valid x c h
  · exact sanitizeCore_all_valid x c hc
  · exact sanitizeCore_all_valid x c (List.take_subset _ _ hc)

theorem sanitize_head (x : List Char) :
    ∀ c cs, sanitizeCollectionName x = c :: cs → isAlnumAscii c = true := by
  intro c cs h
  rcases sanitize_eq_cases x with ⟨h3, he⟩ | ⟨h3, h63, he⟩ | ⟨h63, he⟩ <;> rw [he] at h
  · have hcons : ("col_".data ++ sanitizeCore x) = 'c' :: ("ol_".data ++ sanitizeCore x) := rfl
    rw [hcons] at h
    injection h with h1 _
    rw [← h1]
    decide
  · exact sanitizeCore_head x c cs h
  · cases hcore : sanitizeCore x with
    | nil => rw [hcore] at h63; simp at h63
    | cons a t =>
      rw [hcore] at h
      have htake : List.take 63 (a :: t) = a :: List.take 62 t := rfl
      rw [htake] at h
      injection h with h1 _
      rw [← h1]
      exact sanitizeCore_head x a t hcore

theorem dropWhile_eq_self_of_head {c : Char} {cs : List Char}
    (hc : isAlnumAscii c = true) :
    (c :: cs).dropWhile (fun c => !isAlnumAscii c) = c :: cs := by
  simp [List.dropWhile_cons, hc]

theorem dropTrailing_eq_self_of_last {l : List Char}
    (h : lastSatisfies isAlnumAscii l = true) :
    dropTrailing (fun c => !isAlnumAscii c) l = l := by
  rw [dropTrailing_eq_rdropWhile, List.rdropWhile_eq_self_iff]
  intro hl
  unfold lastSatisfies at h
  rw [List.getLast?_eq_getLast l hl] at h
  simp only [] at h
  simp [h]

theorem sanitizeCollectionName_eq_of_good {c : Char} {cs : List Char}
    (hv : ∀ a ∈ (c :: cs), isValidCollChar a = true)
    (hh : isAlnumAscii c = true)
    (hl : lastSatisfies isAlnumAscii (c :: cs) = true)
    (h3 : 3 ≤ (c :: cs).length) (h63 : (c :: cs).length ≤ 63) :
    sanitizeCollectionName (c :: cs) = c :: cs := by
  simp only [sanitizeCollectionName, sanitizeCore]
  rw [map_keep_of_all hv, dropWhile_eq_self_of_head hh, dropTrailing_eq_self_of_last hl]
  have hn3 : ¬ ((c :: cs).length < 3) := by omega
  rw [if_neg hn3]
  have hn63 : ¬ ((c :: cs).length > 63) := by omega
  rw [if_neg hn63]

/-! ## C5: sanitization idempotence -/

/-- Claim C5 counterexample: the sanitizer is not idempotent as claimed.  The
empty collection name sanitizes to `"col_"` (the short-name branch appends a
trailing underscore), and sanitizing `"col_"` strips that underscore, giving
`"col"`. -/
theorem sanitize_not_idempotent :
    sanitizeCollectionName (sanitizeCollectionName "".data) ≠ sanitizeCollectionName "".data := by
  decide

/-- Claim C5 (amended): the sanitizer is idempotent on every input whose
sanitized form ends in an alphanumeric character — i.e. except when the
`col_`-prefix or 63-character-truncation step leaves a trailing `_` or `-`. -/
theorem sanitize_idempotent_of_alnum_end (x : List Char)
    (h : lastSatisfies isAlnumAscii (sanitizeCollectionName x) = true) :
    sanitizeCollectionName (sanitizeCollectionName x) = sanitizeCollectionName x := by
  have h3 := (sanitize_length x).1
  have h63 := (sanitize_length x).2
  cases hcons : sanitizeCollectionName x with
  | nil => rw [hcons] at h3; simp at h3
  | cons c cs =>
    rw [hcons] at h h3 h63
    exact sanitizeCollectionName_eq_of_good
      (by rw [← hcons]; exact sanitize_all_valid x)
      (sanitize_head x c cs hcons) h h3 h63

/-- Claim C5 witness: the amended idempotence theorem applied at `"abc"`. -/
theorem sanitize_idempotent_witness :
    lastSatisfies isAlnumAscii (sanitizeCollectionName "abc".data) = true ∧
    sanitizeCollectionName (sanitizeCollectionName "abc".data) = sanitizeCollectionName "abc".data :=
  ⟨by decide, sanitize_idempotent_of_alnum_end "abc".data (by decide)⟩

/-! ## C6: the chunker's sealing and seeding rule -/

theorem takeLast_eq_drop (k : Nat) (l : List Char) :
    takeLast k l = l.drop (l.length - k) := by
  rw [takeLast, ← List.rtake_eq_reverse_take_reverse, List.rtake]

theorem chunkLoop_eq_amended (chunkSize chunkOverlap : Nat) :
    ∀ (ps : List (List Char)) (cur : List Char),
      chunkLoop chunkSize chunkOverlap ps cur = chunkLoopAmended chunkSize chunkOverlap ps cur := by
  intro ps
  induction ps with
  | nil => intro cur; rfl
  | cons p pt ih =>
    intro cur
    simp only [chunkLoop, chunkLoopAmended]
    by_cases hc : cur.length + p.length > chunkSize ∧ cur ≠ []
    · rw [if_pos hc, if_pos hc, takeLast_eq_drop, ih]
    · rw [if_neg hc, if_neg hc, ih]

/-- Claim C6 counterexample: on paragraphs `["aaaa", "bbbb"]` (the paragraph
split of `"aaaa\n\nbbbb"`) with `chunk_size=5, chunk_overlap=200`-style small
parameters `(5, 2)`, the code seeds the next buffer as
`"aa" ++ "\n\n" ++ "bbbb"`, not as the claimed `"aa" ++ "bbbb"`: the chunk
sequences differ. -/
theorem chunker_seed_counterexample :
    splitTextChunks ["aaaa".data, "bbbb".data] 5 2 ≠
      splitTextChunksClaimed ["aaaa".data, "bbbb".data] 5 2 := by decide

/-- Claim C6 (amended): for every paragraph list, `chunk_size` and
`chunk_overlap`, the chunker accumulates paragraphs greedily, and whenever the
current buffer is nonempty and `len(buffer) + len(paragraph) > chunk_size` it
seals the stripped buffer as a chunk and seeds the next buffer with the last
`min(chunk_overlap, len(buffer))` characters of the pre-strip buffer, followed
by a blank-line separator, followed by the new paragraph. -/
theorem splitTextChunks_eq_amended (paragraphs : List (List Char))
    (chunkSize chunkOverlap : Nat) :
    splitTextChunks paragraphs chunkSize chunkOverlap =
      splitTextChunksAmended paragraphs chunkSize chunkOverlap :=
  chunkLoop_eq_amended chunkSize chunkOverlap paragraphs []

/-! ## C1: parallel-array alignment under ingestion -/

theorem addChunkFaiss_doc_len (src : String) (c : FaissCollection) (a : Nat × List Char) :
    (addChunkFaiss src c a).documents.length = c.documents.length + 1 := by
  simp [addChunkFaiss]

theorem addChunkFaiss_meta_len (src : String) (c : FaissCollection) (a : Nat × List Char) :
    (addChunkFaiss src c a).metadatas.length = c.metadatas.length + 1 := by
  simp [addChunkFaiss]

theorem addChunkFaiss_ids_len (src : String) (c : FaissCollection) (a : Nat × List Char) :
    (addChunkFaiss src c a).ids.length = c.ids.length + 1 := by
  simp [addChunkFaiss]

theorem addChunkFaiss_index (src : String) (c : FaissCollection) (a : Nat × List Char) :
    (addChunkFaiss src c a).index = c.index := rfl

theorem foldl_addChunkFaiss_lengths (src : String) :
    ∀ (l : List (Nat × List Char)) (c : FaissCollection),
      (l.foldl (addChunkFaiss src) c).documents.length = c.documents.length + l.length ∧
      (l.foldl (addChunkFaiss src) c).metadatas.length = c.metadatas.length + l.length ∧
      (l.foldl (addChunkFaiss src) c).ids.length = c.ids.length + l.length ∧
      (l.foldl (addChunkFaiss src) c).index = c.index := by
  intro l
  induction l with
  | nil => intro c; simp
  | cons a t ih =>
    intro c
    obtain ⟨h1, h2, h3, h4⟩ := ih (addChunkFaiss src c a)
    refine ⟨?_, ?_, ?_, ?_⟩
    · rw [List.foldl_cons, h1, addChunkFaiss_doc_len, List.length_cons]; omega
    · rw [List.foldl_cons, h2, addChunkFaiss_meta_len, List.length_cons]; omega
    · rw [List.foldl_cons, h3, addChunkFaiss_ids_len, List.length_cons]; omega
    · rw [List.foldl_cons, h4, addChunkFaiss_index]

theorem addChunkSimple_doc_len (src : String) (c : SimpleCollection) (a : Nat × List Char) :
    (addChunkSimple src c a).documents.length = c.documents.length + 1 := by
  simp [addChunkSimple]

theorem addChunkSimple_meta_len (src : String) (c : SimpleCollection) (a : Nat × List Char) :
    (addChunkSimple src c a).metadatas.length = c.metadatas.length + 1 := by
  simp [addChunkSimple]

theorem addChunkSimple_ids_len (src : String) (c : SimpleCollection) (a : Nat × List Char) :
    (addChunkSimple src c a).ids.length = c.ids.length + 1 := by
  simp [addChunkSimple]

theorem foldl_addChunkSimple_lengths (src : String) :
    ∀ (l : List (Nat × List Char)) (c : SimpleCollection),
      (l.foldl (addChunkSimple src) c).documents.length = c.documents.length + l.length ∧
      (l.foldl (addChunkSimple src) c).metadatas.length = c.metadatas.length + l.length ∧
      (l.foldl (addChunkSimple src) c).ids.length = c.ids.length + l.length := by
  intro l
  induction l with
  | nil => intro c; simp
  | cons a t ih =>
    intro c
    obtain ⟨h1, h2, h3⟩ := ih (addChunkSimple src c a)
    refine ⟨?_, ?_, ?_⟩
    · rw [List.foldl_cons, h1, addChunkSimple_doc_len, List.length_cons]; omega
    · rw [List.foldl_cons, h2, addChunkSimple_meta_len, List.length_cons]; omega
    · rw [List.foldl_cons, h3, addChunkSimple_ids_len, List.length_cons]; omega

theorem processDocumentFaiss_aligned (embed : List Char → List Rat) (src name : String)
    (chunks : List (List Char)) (store : FaissStore)
    (h : ∀ n, faissAlignedAt store n) :
    ∀ n, faissAlignedAt (processDocumentFaiss embed src name chunks store) n := by
  intro n
  have hbase : (match store name with
      | some c => c
      | none => emptyFaissCollection).aligned := by
    cases hs : store name with
    | some c => exact h name c hs
    | none => exact ⟨rfl, rfl, rfl⟩
  intro c hc
  simp only [processDocumentFaiss] at hc
  by_cases hn : n = name
  · rw [if_pos hn] at hc
    injection hc with hc
    obtain ⟨hb1, hb2, hb3⟩ := hbase
    obtain ⟨h1, h2, h3, h4⟩ := foldl_addChunkFaiss_lengths src chunks.enum
      (match store name with | some c0 => c0 | none => emptyFaissCollection)
    rw [← hc]
    refine ⟨?_, ?_, ?_⟩ <;>
      simp only [h1, h2, h3, h4, List.length_append, List.length_map, List.enum_length] <;>
      omega
  · rw [if_neg hn] at hc
    exact h n c hc

theorem processDocumentSimple_aligned (src name : String)
    (chunks : List (List Char)) (store : SimpleStore)
    (h : ∀ n, simpleAlignedAt store n) :
    ∀ n, simpleAlignedAt (processDocumentSimple src name chunks store) n := by
  intro n
  have hbase : (match store name with
      | some c => c
      | none => emptySimpleCollection).aligned := by
    cases hs : store name with
    | some c => exact h name c hs
    | none => exact ⟨rfl, rfl⟩
  intro c hc
  simp only [processDocumentSimple] at hc
  by_cases hn : n = name
  · rw [if_pos hn] at hc
    injection hc with hc
    obtain ⟨hb1, hb2⟩ := hbase
    obtain ⟨h1, h2, h3⟩ := foldl_addChunkSimple_lengths src chunks.enum
      (match store name with | some c0 => c0 | none => emptySimpleCollection)
    rw [← hc]
    exact ⟨by omega, by omega⟩
  · rw [if_neg hn] at hc
    exact h n c hc

theorem ingestAllFaiss_aligned (embed : List Char → List Rat) :
    ∀ (ops : List IngestOp) (store : FaissStore),
      (∀ n, faissAlignedAt store n) →
      ∀ n, faissAlignedAt (ingestAllFaiss embed ops store) n := by
  intro ops
  induction ops with
  | nil => intro store h; exact h
  | cons op t ih =>
    intro store h
    exact ih _ (processDocumentFaiss_aligned embed op.src op.collection op.chunks store h)

theorem ingestAllSimple_aligned :
    ∀ (ops : List IngestOp) (store : SimpleStore),
      (∀ n, simpleAlignedAt store n) →
      ∀ n, simpleAlignedAt (ingestAllSimple ops store) n := by
  intro ops
  induction ops with
  | nil => intro store h; exact h
  | cons op t ih =>
    intro store h
    exact ih _ (processDocumentSimple_aligned op.src op.collection op.chunks store h)

theorem emptyFaissStore_aligned : ∀ n, faissAlignedAt emptyFaissStore n := by
  intro n c hc
  simp [emptyFaissStore] at hc

theorem emptySimpleStore_aligned : ∀ n, simpleAlignedAt emptySimpleStore n := by
  intro n c hc
  simp [emptySimpleStore] at hc

/-- Claim C1: after any sequence of successful document ingestions starting from
the empty store, every collection keeps its parallel arrays aligned —
`len(documents) = len(metadatas) = len(ids)`, and on the FAISS backend also
equal to the number of vectors held in the collection's index. -/
theorem ingestion_keeps_arrays_aligned (embed : List Char → List Rat)
    (ops : List IngestOp) (name : String) :
    faissAlignedAt (ingestAllFaiss embed ops emptyFaissStore) name ∧
    simpleAlignedAt (ingestAllSimple ops emptySimpleStore) name :=
  ⟨ingestAllFaiss_aligned embed ops emptyFaissStore emptyFaissStore_aligned name,
   ingestAllSimple_aligned ops emptySimpleStore emptySimpleStore_aligned name⟩

/-! ## C3: FAISS retrieval can exceed `min(top_k, collection_size)` -/

/-- Claim C3 failing evaluation: a FAISS collection holding 2 documents, queried
with `top_k = 5`.  Per the FAISS documentation the flat index returns labels
`[0, 1, -1, -1, -1]`; the guard `idx < len(documents)` accepts the `-1`
padding (Python negative indexing), so the loop returns 5 retrieved documents
— more than `min(top_k, collection_size) = 2` — duplicating the last document. -/
theorem faiss_retrieval_exceeds_min_top_k :
    (faissRetrieveLoop ["a".data, "b".data] [⟨"d.txt", 0, 1⟩, ⟨"d.txt", 1, 1⟩]
        ((faissSearchLabels 2 5 [0, 1]).map (fun i => (i, (0 : Rat))))).map List.length =
      Except.ok 5 ∧
    ¬ (5 ≤ min 5 (["a".data, "b".data] : List (List Char)).length) := by
  exact ⟨by decide, by decide⟩

/-! ## C4: FAISS retrieval on an empty collection raises -/

/-- Claim C4 failing evaluation: a FAISS collection holding 0 documents, queried
with `top_k = 5`.  The search returns all `-1` labels; `-1 < 0` is false in
the guard... it is `-1 < len(documents) = 0`, which is true, so
`documents[-1]` is evaluated on an empty list and raises `IndexError` —
the retrieval neither returns an empty sequence nor avoids the error. -/
theorem faiss_retrieval_empty_collection_raises :
    faissRetrieveLoop [] [] ((faissSearchLabels 0 5 []).map (fun i => (i, (0 : Rat)))) =
      Except.error "IndexError: list index out of range" := by
  decide

/-- Claim C4 (amended): on the simple in-memory backend — the backend on which
zero-chunk collections actually arise — every query against an existing
collection holding zero chunks returns an empty sequence of retrieved
documents and does not raise; the FAISS retrieval loop instead raises
`IndexError` on an empty collection (see the counterexample). -/
theorem simple_retrieval_empty_collection (query : List Char) (metadatas : List ChunkMeta)
    (topK : Nat) :
    simpleRetrieve query [] metadatas topK = Except.ok [] := by
  unfold simpleRetrieve simpleScoreDocs
  simp only [List.enum_nil, List.map_nil, List.filter_nil, List.mergeSort_nil, List.take_nil]
  have hok : simpleRetrieveScored (pySplitWs (pyLower query)) metadatas [] = Except.ok [] := rfl
  rw [hok]
  simp

/-! ## C7: deleting a missing collection -/

/-- Claim C7 failing evaluation: with the FAISS backend active,
`delete_collection` on a name that does not exist still returns `True`
(`_delete_collection_faiss` returns `True` unconditionally); and with only the
simple in-memory backend active, the same call raises `RuntimeError` —
in neither fallback deployment does it return `False`. -/
theorem delete_missing_collection_not_false :
    (deleteCollection true emptyFaissStore (fun _ => none) "missing").map (fun r => r.1) =
      Except.ok true ∧
    deleteCollection false emptyFaissStore (fun _ => none) "missing" =
      Except.error
        "RuntimeError: Neither ChromaDB nor FAISS is available. RAG functionality is disabled." := by
  exact ⟨rfl, rfl⟩

/-! ## C2: a raised generation call becomes an HTTP 500 -/

/-- Claim C2 failing evaluation: when the generation call inside `query_rag`
raises — reachable, e.g. with `provider = None` in the request, which makes
`generate_response`'s own error handler fail pydantic validation — `query_rag`
assigns the apology to `answer` but then crashes reading the unassigned local
`model_response`, and the `/rag/query` handler turns that into HTTP 500
instead of the claimed 200-with-apology `RAGResponse`. -/
theorem rag_generation_failure_becomes_500 :
    modelServiceGenerate (some "m") none
        (Except.ok ⟨"hi", "m", "huggingface", 1, 1, 1, 0, "stop"⟩) =
      Except.error "ValidationError: provider must be a string" ∧
    queryRagRespond "q" (some "m") none []
        (modelServiceGenerate (some "m") none
          (Except.ok ⟨"hi", "m", "huggingface", 1, 1, 1, 0, "stop"⟩)) =
      Except.error
        "UnboundLocalError: local variable \x27model_response\x27 referenced before assignment" ∧
    ragQueryEndpointStatus
        (queryRagRespond "q" (some "m") none []
          (modelServiceGenerate (some "m") none
            (Except.ok ⟨"hi", "m", "huggingface", 1, 1, 1, 0, "stop"⟩))) = 500 ∧
    ragQueryEndpointStatus
        (queryRagRespond "q" (some "m") (some "huggingface") []
          (Except.error "provider exception")) = 500 := by
  exact ⟨rfl, rfl, rfl, rfl⟩

/-! ## C10: the keyword fallback never divides by zero -/

theorem countTermMatches_nil (d : List Char) : countTermMatches [] d = 0 := rfl

theorem simpleScoreDocs_nil_terms (documents : List (List Char)) :
    simpleScoreDocs [] documents = [] := by
  unfold simpleScoreDocs
  rw [List.filter_eq_nil_iff]
  intro a ha
  obtain ⟨x, _, rfl⟩ := List.mem_map.mp ha
  simp [countTermMatches_nil]

theorem mapM_ok_of_forall {α β : Type} (f : α → Except String β) :
    ∀ (l : List α), (∀ x ∈ l, ∃ y, f x = .ok y) → ∃ ys, l.mapM f = .ok ys := by
  intro l
  induction l with
  | nil => intro _; exact ⟨[], rfl⟩
  | cons a t ih =>
    intro h
    obtain ⟨y, hy⟩ := h a (List.mem_cons_self a t)
    obtain ⟨ys, hys⟩ := ih (fun x hx => h x (List.mem_cons_of_mem a hx))
    refine ⟨y :: ys, ?_⟩
    rw [List.mapM_cons, hy, hys]
    rfl

theorem simpleRetrieveScored_ok (queryTerms : List (List Char)) (metadatas : List ChunkMeta)
    (top : List (Nat × Nat × List Char)) (h : queryTerms ≠ []) :
    ∃ ys, simpleRetrieveScored queryTerms metadatas top = .ok ys := by
  unfold simpleRetrieveScored
  apply mapM_ok_of_forall
  intro x _
  have hl : ¬ (queryTerms.length = 0) := by
    simpa [List.length_eq_zero] using h
  refine ⟨⟨x.2.2.2, metadatas.get? x.2.1, (x.2.2.1 : Rat) / (queryTerms.length : Rat), x.1 + 1⟩, ?_⟩
  simp only [if_neg hl]
  rfl

/-- Claim C10: in the simple keyword-fallback retrieval, for every query
(including empty and whitespace-only), every document list, every metadata
list and every `top_k`, the score normalization `score / len(query_terms)`
never divides by zero: the retrieval stage always returns a result instead of
raising `ZeroDivisionError` — scores are normalized only for documents with a
positive match count, which requires at least one query term, and otherwise
the fallback branch assigns the fixed sentinel score `0.1`. -/
theorem simple_retrieval_no_div_by_zero (query : List Char) (documents : List (List Char))
    (metadatas : List ChunkMeta) (topK : Nat) :
    (simpleRetrieve query documents metadatas topK).isOk = true := by
  simp only [simpleRetrieve]
  by_cases h : pySplitWs (pyLower query) = []
  · rw [h, simpleScoreDocs_nil_terms, List.mergeSort_nil]
    simp only [List.take_nil]
    have hok : simpleRetrieveScored [] metadatas [] = .ok [] := rfl
    rw [hok]
    rfl
  · obtain ⟨ys, hys⟩ := simpleRetrieveScored_ok (pySplitWs (pyLower query)) metadatas
      (((simpleScoreDocs (pySplitWs (pyLower query)) documents).mergeSort
        (fun a b => decide (b.2.1 ≤ a.2.1))).take topK) h
    rw [hys]
    by_cases he : ys.isEmpty <;> simp [he, Except.isOk, Except.toBool]

/-! ## C9: compare_models error isolation -/

theorem determineProvider_valid (m : String) : determineProvider m ∈ validProviders := by
  unfold determineProvider validProviders
  split_ifs <;> simp

theorem modelServiceGenerate_some (mo : Option String) (p : String)
    (res : Except String ModelResponse) :
    modelServiceGenerate mo (some p) res =
      if p ∈ validProviders then
        match res with
        | .ok r => .ok r
        | .error e => .ok (errorModelResponse mo p e)
      else .ok (errorModelResponse mo p ("Unsupported provider: " ++ p)) := rfl

theorem modelServiceGenerate_ok (m : String) (r : ModelResponse) :
    modelServiceGenerate (some m) (some (determineProvider m)) (Except.ok r) = Except.ok r := by
  rw [modelServiceGenerate_some, if_pos (determineProvider_valid m)]

theorem modelServiceGenerate_absorbs (m e : String) :
    modelServiceGenerate (some m) (some (determineProvider m)) (Except.error e) =
      Except.ok (errorModelResponse (some m) (determineProvider m) e) := by
  rw [modelServiceGenerate_some, if_pos (determineProvider_valid m)]

theorem zip_map_self {α β : Type} (f : α → β) :
    ∀ (l : List α), l.zip (l.map f) = l.map (fun a => (a, f a)) := by
  intro l
  induction l with
  | nil => rfl
  | cons a t ih => simp [ih]

theorem compareModels_eq_map (params : Params)
    (models : List (String × Except String ModelResponse)) :
    compareModels params models = models.map (fun mp =>
      toComparison params mp.1
        (modelServiceGenerate (some mp.1) (some (determineProvider mp.1)) mp.2)) := by
  unfold compareModels gatherResponses
  rw [zip_map_self, List.map_map]
  rfl

theorem compareModels_length (params : Params)
    (models : List (String × Except String ModelResponse)) :
    (compareModels params models).length = models.length := by
  rw [compareModels_eq_map, List.length_map]

theorem get?_append_cons_length {α : Type} :
    ∀ (l1 : List α) (x : α) (l2 : List α), (l1 ++ x :: l2).get? l1.length = some x := by
  intro l1
  induction l1 with
  | nil => intro x l2; rfl
  | cons a t ih => intro x l2; simpa using ih x l2

theorem countP_gather_ok_map (l : List (String × ModelResponse))
    (h : ∀ x ∈ l, x.2.finishReason ≠ "error") :
    (gatherResponses (l.map (fun x => (x.1, Except.ok x.2)))).countP isErrorResponse = 0 := by
  unfold gatherResponses
  rw [List.map_map, List.countP_eq_zero]
  intro r hr
  obtain ⟨x, hx, rfl⟩ := List.mem_map.mp hr
  show ¬ isErrorResponse (modelServiceGenerate (some x.1) (some (determineProvider x.1))
    (Except.ok x.2)) = true
  rw [modelServiceGenerate_ok]
  simpa [isErrorResponse] using h x hx

/-- Claim C9 counterexample: the claim says the error entry of the returned
comparison list carries `finish_reason="error"`, but `ModelComparison` — the
type of the returned entries — has no `finish_reason` field at all: on a
concrete 3-model request where exactly the second provider call throws, the
response has 3 entries and *no* entry serializes a `("finish_reason",
"error")` pair. -/
theorem compare_models_finish_reason_missing :
    (compareModels []
        (compareInputs [("m1", sampleStopResponse "m1")] "m2" "boom"
          [("m3", sampleStopResponse "m3")])).length = 3 ∧
    ¬ ((compareModels []
        (compareInputs [("m1", sampleStopResponse "m1")] "m2" "boom"
          [("m3", sampleStopResponse "m3")])).countP
          (fun c => decide (("finish_reason", "error") ∈ modelComparisonPairs c)) = 1) := by
  exact ⟨by decide, by decide⟩

/-- Claim C9 (amended): for a compare request over N models in which exactly one
provider call throws and every other call returns a response whose
finish_reason is not "error", the comparison returns exactly N entries and the
request does not fail; exactly one of the gathered per-model generation
results is an error result (`finish_reason="error"` on the intermediate
`ModelResponse`); and the returned entry at the failing position is the
converted error response, carrying the error message in its `text` (the
`ModelComparison` entries themselves have no `finish_reason` field). -/
theorem compare_models_error_isolation (params : Params)
    (pre post : List (String × ModelResponse)) (mf e : String)
    (hpre : ∀ x ∈ pre, x.2.finishReason ≠ "error")
    (hpost : ∀ x ∈ post, x.2.finishReason ≠ "error") :
    (compareModels params (compareInputs pre mf e post)).length =
      (compareInputs pre mf e post).length ∧
    (gatherResponses (compareInputs pre mf e post)).countP isErrorResponse = 1 ∧
    (compareModels params (compareInputs pre mf e post)).get? pre.length =
      some (toComparison params mf
        (Except.ok (errorModelResponse (some mf) (determineProvider mf) e))) := by
  refine ⟨compareModels_length _ _, ?_, ?_⟩
  · unfold compareInputs
    rw [show (pre.map (fun x => (x.1, Except.ok x.2)) ++
          (mf, Except.error e) :: post.map (fun x => (x.1, Except.ok x.2))) =
        pre.map (fun x => (x.1, Except.ok x.2)) ++
          ((mf, Except.error e) :: post.map (fun x => (x.1, Except.ok x.2))) from rfl]
    unfold gatherResponses
    rw [List.map_append, List.countP_append, List.map_cons, List.countP_cons]
    have h1 : (List.map
        (fun mp => modelServiceGenerate (some mp.1) (some (determineProvider mp.1)) mp.2)
        (pre.map (fun x => (x.1, Except.ok x.2)))).countP isErrorResponse = 0 := by
      have := countP_gather_ok_map pre hpre
      unfold gatherResponses at this
      exact this
    have h2 : (List.map
        (fun mp => modelServiceGenerate (some mp.1) (some (determineProvider mp.1)) mp.2)
        (post.map (fun x => (x.1, Except.ok x.2)))).countP isErrorResponse = 0 := by
      have := countP_gather_ok_map post hpost
      unfold gatherResponses at this
      exact this
    have hmid : isErrorResponse
        (modelServiceGenerate (some mf) (some (determineProvider mf)) (Except.error e)) = true := by
      rw [modelServiceGenerate_absorbs]
      rfl
    rw [h1, h2, hmid]
    simp
  · rw [compareModels_eq_map]
    unfold compareInputs
    rw [List.map_append, List.map_cons]
    have hlen : pre.length =
        ((pre.map (fun x => (x.1, Except.ok x.2))).map (fun mp =>
          toComparison params mp.1
            (modelServiceGenerate (some mp.1) (some (determineProvider mp.1)) mp.2))).length := by
      rw [List.length_map, List.length_map]
    rw [hlen, get?_append_cons_length]
    rw [modelServiceGenerate_absorbs]

/-- Claim C9 witness: the amended theorem applied at a concrete 3-model request
whose middle provider call throws. -/
theorem compare_models_error_isolation_witness :
    (∀ x ∈ [("m1", sampleStopResponse "m1")], x.2.finishReason ≠ "error") ∧
    (∀ x ∈ [("m3", sampleStopResponse "m3")], x.2.finishReason ≠ "error") ∧
    ((compareModels [] (compareInputs [("m1", sampleStopResponse "m1")] "m2" "boom"
        [("m3", sampleStopResponse "m3")])).length =
      (compareInputs [("m1", sampleStopResponse "m1")] "m2" "boom"
        [("m3", sampleStopResponse "m3")]).length ∧
    (gatherResponses (compareInputs [("m1", sampleStopResponse "m1")] "m2" "boom"
        [("m3", sampleStopResponse "m3")])).countP isErrorResponse = 1 ∧
    (compareModels [] (compareInputs [("m1", sampleStopResponse "m1")] "m2" "boom"
        [("m3", sampleStopResponse "m3")])).get? 1 =
      some (toComparison [] "m2"
        (Except.ok (errorModelResponse (some "m2") (determineProvider "m2") "boom")))) :=
  ⟨by decide, by decide,
   compare_models_error_isolation [] [("m1", sampleStopResponse "m1")]
     [("m3", sampleStopResponse "m3")] "m2" "boom" (by decide) (by decide)⟩

/-! ## C8: gated model download without credentials -/

theorem gatedMessage_contains_url (m : String) :
    gatedMessage m =
      "Gated model access required. Visit " ++ ("https://huggingface.co/" ++ m) ++
        " to request access." := by
  unfold gatedMessage
  rw [← String.append_assoc]
  rfl

/-- Claim C8 counterexample: the transition to Downloading is *not* refused,
and the record is *not* set directly to failed.  For the gated model
`google/gemma-2b-it` with no credential and a fresh download service,
`download_model` installs a record with status `"downloading"`, returns
`"downloading"` to the client, and schedules the background task — the
credential is only checked afterwards, inside `_download_model_files`. -/
theorem download_gated_enters_downloading_first :
    (downloadModel freshDownloadState "google/gemma-2b-it").1 = "downloading" ∧
    (downloadModel freshDownloadState "google/gemma-2b-it").2.2 = true ∧
    ((downloadModel freshDownloadState "google/gemma-2b-it").2.1.downloadStatus
        "google/gemma-2b-it").map DownloadRecord.status = some "downloading" ∧
    resolveApiKey none = none ∧
    "google/gemma-2b-it" ∈ gatedModels ∧
    ("downloading" : String) ≠ "failed" := by
  exact ⟨rfl, rfl, by decide, by decide, by decide, by decide⟩

/-- Claim C8 (amended): for every model in the gated-models list, when no
valid HuggingFace credential resolves, a download request (model not on disk,
no active task) schedules the background task — the record transitions to
`"downloading"` first, not directly to failed — and the task then refuses the
download before any progress simulation: the record ends in status `"failed"`
with progress 0 and a message containing the upstream access-request URL
`https://huggingface.co/<model>`; the task handle is freed without
re-scheduling, and no completion marker is ever written. -/
theorem download_gated_no_credential (rawKey : Option String) (s0 : DownloadState) (m : String)
    (hg : m ∈ gatedModels)
    (hk : resolveApiKey rawKey = none)
    (hd : m ∉ s0.completedOnDisk)
    (ha : m ∉ s0.activeDownloads) :
    (downloadModel s0 m).2.2 = true ∧
    (∃ pre suf,
      (downloadModelFilesTask rawKey (downloadModel s0 m).2.1 m).downloadStatus m =
        some ⟨"failed", 0, pre ++ ("https://huggingface.co/" ++ m) ++ suf, 0, 0⟩) ∧
    m ∉ (downloadModelFilesTask rawKey (downloadModel s0 m).2.1 m).activeDownloads ∧
    (downloadModelFilesTask rawKey (downloadModel s0 m).2.1 m).completedOnDisk =
      s0.completedOnDisk := by
  have hdm : downloadModel s0 m =
      ("downloading",
       { s0 with
         downloadStatus := fun n => if n = m then some (startingRecord m) else s0.downloadStatus n
         activeDownloads := s0.activeDownloads ++ [m] },
       true) := by
    unfold downloadModel
    rw [if_neg hd, if_neg ha]
  rw [hdm]
  have htask : downloadModelFilesTask rawKey
      ({ s0 with
         downloadStatus := fun n => if n = m then some (startingRecord m) else s0.downloadStatus n
         activeDownloads := s0.activeDownloads ++ [m] } : DownloadState) m =
      finalizeTask
        (setStatus
          ({ s0 with
             downloadStatus := fun n => if n = m then some (startingRecord m) else s0.downloadStatus n
             activeDownloads := s0.activeDownloads ++ [m] } : DownloadState) m
          (fun r => { r with status := "failed", message := gatedMessage m, progress := 0 })) m := by
    unfold downloadModelFilesTask
    rw [if_pos ⟨hg, hk⟩]
  refine ⟨rfl, ?_, ?_, ?_⟩
  · refine ⟨"Gated model access required. Visit ", " to request access.", ?_⟩
    show (downloadModelFilesTask rawKey _ m).downloadStatus m = _
    rw [htask]
    unfold finalizeTask setStatus
    simp only [if_true, Option.map_some']
    rw [gatedMessage_contains_url]
    rfl
  · show m ∉ (downloadModelFilesTask rawKey _ m).activeDownloads
    rw [htask]
    unfold finalizeTask setStatus
    simp only []
    rw [List.erase_append_right _ ha, List.erase_cons_head, List.append_nil]
    exact ha
  · show (downloadModelFilesTask rawKey _ m).completedOnDisk = s0.completedOnDisk
    rw [htask]
    rfl

/-- Claim C8 witness: the theorem applied at the gated model
`google/gemma-2b-it` with no credential and a fresh download service. -/
theorem download_gated_no_credential_witness :
    "google/gemma-2b-it" ∈ gatedModels ∧
    resolveApiKey none = none ∧
    "google/gemma-2b-it" ∉ freshDownloadState.completedOnDisk ∧
    "google/gemma-2b-it" ∉ freshDownloadState.activeDownloads ∧
    ((downloadModel freshDownloadState "google/gemma-2b-it").2.2 = true ∧
    (∃ pre suf,
      (downloadModelFilesTask none
          (downloadModel freshDownloadState "google/gemma-2b-it").2.1
          "google/gemma-2b-it").downloadStatus "google/gemma-2b-it" =
        some ⟨"failed", 0, pre ++ ("https://huggingface.co/" ++ "google/gemma-2b-it") ++ suf,
          0, 0⟩) ∧
    "google/gemma-2b-it" ∉ (downloadModelFilesTask none
        (downloadModel freshDownloadState "google/gemma-2b-it").2.1
        "google/gemma-2b-it").activeDownloads ∧
    (downloadModelFilesTask none
        (downloadModel freshDownloadState "google/gemma-2b-it").2.1
        "google/gemma-2b-it").completedOnDisk = freshDownloadState.completedOnDisk) :=
  ⟨by decide, by decide, by decide, by decide,
   download_gated_no_credential none freshDownloadState "google/gemma-2b-it"
     (by decide) (by decide) (by decide) (by decide)⟩

end MistralPlayground
